import Mathlib

/-!
Verification development for the ProcessMemorySniffer repository.

The C++ sources are shallowly embedded as pure Lean functions.  Calls into
the Win32 API (EnumProcesses, OpenProcess, GetProcessMemoryInfo,
GetModuleBaseNameW, QueryFullProcessImageNameW, CloseHandle) are modelled by
a stub environment `OsEnv`; where a property speaks about which OS calls are
performed, the embedding additionally threads an explicit trace of `OsCall`
events.  Machine integers (DWORD, SIZE_T) are modelled as `Nat`: all values
involved are non-negative counts and no claim depends on overflow.  A C++
exception is modelled by `Except`; the unbounded retry loop of
`enumerateProcessIds` is given explicit fuel, with `none` standing for
non-termination within the fuel bound.
-/

namespace ProcessMemorySniffer

instance {ε α : Type} [DecidableEq ε] [DecidableEq α] : DecidableEq (Except ε α) :=
  fun a b =>
    match a, b with
    | Except.error e1, Except.error e2 =>
      if h : e1 = e2 then isTrue (by rw [h]) else isFalse (by simp [h])
    | Except.ok v1, Except.ok v2 =>
      if h : v1 = v2 then isTrue (by rw [h]) else isFalse (by simp [h])
    | Except.error _, Except.ok _ => isFalse (by simp)
    | Except.ok _, Except.error _ => isFalse (by simp)

/-- Embeds `struct ProcessInfo` (ProcessInfo.hpp): pid, name, workingSetBytes,
privateBytes, with the same zero-initialised defaults. -/
structure ProcessInfo where
  pid : Nat := 0
  name : String := ""
  workingSetBytes : Nat := 0
  privateBytes : Nat := 0
deriving Repr, DecidableEq

/-- Embeds `class Win32Error` (Win32Error.hpp): a context string plus the
Win32 error code captured at construction time. -/
structure Win32Error where
  context : String
  code : Nat
deriving Repr, DecidableEq

/-- Embeds `Win32Error`'s message construction:
`std::runtime_error(context + "(error " + std::to_string(errorCode) + ")")`. -/
def Win32Error.what (e : Win32Error) : String :=
  e.context ++ "(error " ++ toString e.code ++ ")"

/-- Embeds `constexpr auto PID_VECT_SIZE = 1024` (ProcessQueryService.cpp). -/
def PID_VECT_SIZE : Nat := 1024

/-- The retry loop of `ProcessQueryService::enumerateProcessIds`.  The stub
models one `::EnumProcesses` call: given the current buffer capacity (in
DWORD entries) it either fails with a Win32 error code, or returns the list
of process IDs written into the buffer (its length is
`bytesReturned / sizeof(DWORD)`).  The loop breaks and trims as soon as that
count is strictly below the capacity, and otherwise doubles the capacity and
retries; `fuel` bounds the number of iterations, `none` meaning the bound was
exhausted. -/
def enumLoop (stub : Nat → Except Nat (List Nat)) :
    Nat → Nat → Option (Except Nat (List Nat))
  | 0, _ => none
  | fuel + 1, cap =>
    match stub cap with
    | Except.error e => some (Except.error e)
    | Except.ok ids =>
      if ids.length < cap then some (Except.ok ids)
      else enumLoop stub fuel (cap * 2)

/-- Embeds `ProcessQueryService::enumerateProcessIds`: starts the retry loop
with a `PID_VECT_SIZE`-entry buffer; an outright `EnumProcesses` failure is
turned into a thrown `Win32Error("EnumProcesses failed.")` carrying the OS
error code reported by the stub. -/
def enumerateProcessIds (stub : Nat → Except Nat (List Nat)) (fuel : Nat) :
    Option (Except Win32Error (List Nat)) :=
  match enumLoop stub fuel PID_VECT_SIZE with
  | none => none
  | some (Except.error e) => some (Except.error ⟨"EnumProcesses failed.", e⟩)
  | some (Except.ok ids) => some (Except.ok ids)

/-- One OS interaction performed during an inspection, for the traced
embedding of `queryProcess`. -/
inductive OsCall where
  | openProcess (pid : Nat)
  | getProcessMemoryInfo (handle : Nat)
  | getModuleBaseName (handle : Nat)
  | queryFullProcessImageName (handle : Nat)
  | closeHandle (handle : Nat)
deriving Repr, DecidableEq

/-- Stub environment for the per-process Win32 calls.  `openProcess` returns
the raw HANDLE (`0` models `NULL`, i.e. failure); `memInfo` returns
`(WorkingSetSize, PrivateUsage)` on success; the two name calls return the
string placed in the caller's buffer on success and `none` on failure. -/
structure OsEnv where
  openProcess : Nat → Nat
  memInfo : Nat → Option (Nat × Nat)
  moduleBaseName : Nat → Option String
  fullImageName : Nat → Option String

/-- Embeds `class ProcessHandle` (ProcessHandle.hpp): the wrapped raw HANDLE,
with `0` modelling the `nullptr` default. -/
structure ProcessHandle where
  handle_ : Nat := 0
deriving Repr, DecidableEq

/-- Embeds `ProcessHandle::get`. -/
def ProcessHandle.get (h : ProcessHandle) : Nat := h.handle_

/-- Embeds the private `ProcessHandle::close`: if a handle is held,
`::CloseHandle` is called (recorded as a trace event) and the member is reset
to null; otherwise nothing happens.  Returns the post-state and the emitted
OS calls. -/
def ProcessHandle.close (h : ProcessHandle) : ProcessHandle × List OsCall :=
  if h.handle_ ≠ 0 then (⟨0⟩, [OsCall.closeHandle h.handle_])
  else (h, [])

/-- Embeds the destructor `~ProcessHandle`, which just calls `close()`;
only the emitted OS calls matter since the object's lifetime ends. -/
def ProcessHandle.destroy (h : ProcessHandle) : List OsCall :=
  h.close.2

/-- Embeds the move constructor
`ProcessHandle(ProcessHandle&&): handle_(std::exchange(other.handle_, nullptr))`.
Returns (constructed object, moved-from object). -/
def ProcessHandle.moveCtor (other : ProcessHandle) : ProcessHandle × ProcessHandle :=
  (⟨other.handle_⟩, ⟨0⟩)

/-- Embeds move assignment for the `this != &other` case: first `close()` on
the current object, then take `other`'s handle and null it out.  Returns
(assigned-to object, moved-from object, OS calls emitted by the close). -/
def ProcessHandle.moveAssign (self other : ProcessHandle) :
    ProcessHandle × ProcessHandle × List OsCall :=
  let closed := self.close
  (⟨other.handle_⟩, ⟨0⟩, closed.2)

/-- Embeds the static `ProcessHandle::open`: one `::OpenProcess` call; a null
result yields `std::nullopt`, otherwise the handle is wrapped.  The trace
records the open attempt. -/
def ProcessHandle.openHandle (env : OsEnv) (pid : Nat) :
    Option ProcessHandle × List OsCall :=
  let handle := env.openProcess pid
  if handle = 0 then (none, [OsCall.openProcess pid])
  else (some ⟨handle⟩, [OsCall.openProcess pid])

/-- Embeds `ProcessQueryService::tryGetProcessName` with its OS-call trace:
try `GetModuleBaseNameW` first; on failure try
`QueryFullProcessImageNameW`; if both fail return the `<unknown>`
placeholder. -/
def tryGetProcessNameT (env : OsEnv) (process : Nat) : String × List OsCall :=
  match env.moduleBaseName process with
  | some name => (name, [OsCall.getModuleBaseName process])
  | none =>
    match env.fullImageName process with
    | some name =>
      (name, [OsCall.getModuleBaseName process,
              OsCall.queryFullProcessImageName process])
    | none =>
      ("<unknown>", [OsCall.getModuleBaseName process,
                     OsCall.queryFullProcessImageName process])

/-- The value computed by `tryGetProcessName`, without the trace. -/
def tryGetProcessName (env : OsEnv) (process : Nat) : String :=
  (tryGetProcessNameT env process).1

/-- Embeds `ProcessQueryService::queryProcess` together with the trace of OS
calls it performs.  Follows the source exactly: reject pid 0; open a handle
(failure yields nullopt); query memory counters (failure yields nullopt, the
handle destructor still closing the handle); resolve the name and build the
`ProcessInfo`; the handleOpt destructor runs at scope exit on both remaining
paths.  The function is total (`noexcept` in the source: no exceptions). -/
def queryProcessT (env : OsEnv) (pid : Nat) : Option ProcessInfo × List OsCall :=
  if pid = 0 then (none, [])
  else
    match ProcessHandle.openHandle env pid with
    | (none, trace) => (none, trace)
    | (some handle, trace) =>
      match env.memInfo handle.get with
      | none =>
        (none, trace ++ [OsCall.getProcessMemoryInfo handle.get] ++ handle.destroy)
      | some (workingSet, privateUsage) =>
        let nameR := tryGetProcessNameT env handle.get
        (some { pid := pid, name := nameR.1,
                workingSetBytes := workingSet, privateBytes := privateUsage },
         trace ++ [OsCall.getProcessMemoryInfo handle.get] ++ nameR.2 ++ handle.destroy)

/-- The value returned by `queryProcess`, without the trace. -/
def queryProcess (env : OsEnv) (pid : Nat) : Option ProcessInfo :=
  (queryProcessT env pid).1

/-- The loop body of `ProcessQueryService::collectProcesses`: for each pid in
order, append the record when `queryProcess` produces one, otherwise skip. -/
def collectLoop (env : OsEnv) : List Nat → List ProcessInfo
  | [] => []
  | pid :: rest =>
    match queryProcess env pid with
    | some info => info :: collectLoop env rest
    | none => collectLoop env rest

/-- Embeds `ProcessQueryService::collectProcesses`: one call to
`enumerateProcessIds` (whose thrown `Win32Error` propagates uncaught), then
the filtering loop over the returned pids. -/
def collectProcesses (env : OsEnv) (stub : Nat → Except Nat (List Nat))
    (fuel : Nat) : Option (Except Win32Error (List ProcessInfo)) :=
  match enumerateProcessIds stub fuel with
  | none => none
  | some (Except.error e) => some (Except.error e)
  | some (Except.ok pids) => some (Except.ok (collectLoop env pids))

/-- Embeds `constexpr int MAX_NAME_LEN = 28` (the reporting unit). -/
def MAX_NAME_LEN : Nat := 28

/-- Embeds the display-name truncation inside `printTopByWorkingSet`:
`if (displayName.size() > MAX_NAME_LEN)
   displayName = displayName.substr(0, MAX_NAME_LEN - 1) + L"...";`. -/
def truncateName (name : String) : String :=
  if name.length > MAX_NAME_LEN then (name.take (MAX_NAME_LEN - 1)) ++ "..."
  else name

/-- One printed table row, abstracted to the data it is rendered from: the
pid, the (possibly truncated) display name, and the two byte counts whose
mebibyte renderings the row shows.  The printed text is a fixed function of
these four fields, so two reports are equal iff their abstract rows are. -/
structure Row where
  pid : Nat
  displayName : String
  workingSetBytes : Nat
  privateBytes : Nat
deriving Repr, DecidableEq

/-- The row printed for one `ProcessInfo` by the loop body of
`printTopByWorkingSet`. -/
def ProcessInfo.toRow (p : ProcessInfo) : Row :=
  ⟨p.pid, truncateName p.name, p.workingSetBytes, p.privateBytes⟩

/-- Everything `printTopByWorkingSet` writes to `std::wcout`: either the
"No processes available." message, or the header (showing the clamped topN)
followed by the table rows. -/
inductive ReportOutput where
  | noProcesses
  | table (topN : Nat) (rows : List Row)
deriving Repr, DecidableEq

/-- The comparator passed to `std::sort`:
`a.workingSetBytes > b.workingSetBytes`, i.e. sort descending by working
set.  Stated as the reflexive "not-after" relation the sorted output
satisfies. -/
def wsDesc (a b : ProcessInfo) : Prop :=
  b.workingSetBytes ≤ a.workingSetBytes

instance : DecidableRel wsDesc := fun a b =>
  inferInstanceAs (Decidable (b.workingSetBytes ≤ a.workingSetBytes))

instance : IsTotal ProcessInfo wsDesc :=
  ⟨fun a b => Nat.le_total b.workingSetBytes a.workingSetBytes⟩

instance : IsTrans ProcessInfo wsDesc :=
  ⟨fun _ _ _ hab hbc => Nat.le_trans hbc hab⟩

/-- The `std::sort` call of `printTopByWorkingSet`: some permutation of the
input that is sorted descending by `workingSetBytes` (`std::sort` is
unstable, so any such permutation refines it; insertion sort picks one). -/
def sortByWorkingSetDesc (l : List ProcessInfo) : List ProcessInfo :=
  l.insertionSort wsDesc

/-- Embeds `printTopByWorkingSet` (the value written to the output stream):
empty input prints the fallback message; otherwise a copy of the input is
sorted descending by working set, topN is clamped to the record count, and
the first topN sorted records are printed as rows. -/
def printTopByWorkingSet (processes : List ProcessInfo) (topN : Nat) :
    ReportOutput :=
  if processes.isEmpty then ReportOutput.noProcesses
  else
    let sorted := sortByWorkingSetDesc processes
    let topN := min topN sorted.length
    ReportOutput.table topN ((sorted.take topN).map ProcessInfo.toRow)

/-- The two vector variables live during a `printTopByWorkingSet` call: the
caller's vector (bound by const reference) and the local copy `sorted`. -/
structure PrintState where
  callerVec : List ProcessInfo
  sortedVec : List ProcessInfo

/-- Embeds a full call to `printTopByWorkingSet` including its effect on the
caller's vector: `auto sorted = processes` copies the caller's vector into
the local, and `std::sort` mutates only that local copy; the caller's vector
is whatever `callerVec` holds when the call returns. -/
def printTopByWorkingSetCall (processes : List ProcessInfo) (topN : Nat) :
    ReportOutput × List ProcessInfo :=
  let s0 : PrintState := { callerVec := processes, sortedVec := [] }
  if s0.callerVec.isEmpty then (ReportOutput.noProcesses, s0.callerVec)
  else
    let s1 : PrintState := { s0 with sortedVec := s0.callerVec }
    let s2 : PrintState := { s1 with sortedVec := sortByWorkingSetDesc s1.sortedVec }
    let n := min topN s2.sortedVec.length
    (ReportOutput.table n ((s2.sortedVec.take n).map ProcessInfo.toRow),
     s2.callerVec)

/-- `EXIT_SUCCESS`. -/
def EXIT_SUCCESS : Nat := 0

/-- `EXIT_FAILURE`. -/
def EXIT_FAILURE : Nat := 1

/-- The observable outcome of one `runSniffer` call: the returned exit code,
what `printTopByWorkingSet` printed to stdout (if reached), and the one-line
diagnostic written to `std::cerr` (if any). -/
structure SnifferResult where
  exitCode : Nat
  report : Option ReportOutput
  errLine : Option String
deriving Repr, DecidableEq

/-- Embeds `runSniffer` (ProcessMemorySniffer.cpp): collect, print the top
`topN`, return success; a `Win32Error` escaping the collection is caught at
this top level, reported as one line on the error stream, and mapped to
`EXIT_FAILURE`.  (`queryProcess` is noexcept and `printTopByWorkingSet`
throws nothing in the model, so `Win32Error` is the only exception.) -/
def runSniffer (env : OsEnv) (stub : Nat → Except Nat (List Nat)) (fuel : Nat)
    (topN : Nat) : Option SnifferResult :=
  match collectProcesses env stub fuel with
  | none => none
  | some (Except.error ex) =>
    some ⟨EXIT_FAILURE, none, some ("Win32 error: " ++ ex.what ++ "\n")⟩
  | some (Except.ok processes) =>
    some ⟨EXIT_SUCCESS, some (printTopByWorkingSet processes topN), none⟩

/-! ### Concrete stub environments used by witnesses and counterexamples -/

/-- Stub for the end-to-end test of the collection pass: pid 0 is rejected,
pid 100 fails handle acquisition, pid 200 opens and reports
workingSet 52428800, private 20971520, name "app.exe". -/
def envC5 : OsEnv :=
  { openProcess := fun pid => if pid = 200 then 200 else 0
    memInfo := fun h => if h = 200 then some (52428800, 20971520) else none
    moduleBaseName := fun h => if h = 200 then some "app.exe" else none
    fullImageName := fun _ => none }

/-- Enumeration stub that immediately reports two pids. -/
def stubTwo : Nat → Except Nat (List Nat) := fun _ => Except.ok [1, 2]

/-- Environment in which every nonzero pid opens and reports distinct
working-set sizes. -/
def envTwo : OsEnv :=
  { openProcess := fun pid => pid
    memInfo := fun h => some (h * 1048576, h)
    moduleBaseName := fun _ => some "a.exe"
    fullImageName := fun _ => none }

/-- Enumeration stub whose underlying primitive fails outright with OS error
code 5. -/
def stubFail : Nat → Except Nat (List Nat) := fun _ => Except.error 5

/-- Environment in which both name-resolution calls fail but the memory
query succeeds. -/
def envBothFail : OsEnv :=
  { openProcess := fun pid => pid
    memInfo := fun _ => some (1024, 512)
    moduleBaseName := fun _ => none
    fullImageName := fun _ => none }

/-! ### C1 -/

set_option maxRecDepth 4000 in
/-- C1: the claim asserts the truncated display string never exceeds
MAX_NAME_LEN = 28 characters.  The code truncates to MAX_NAME_LEN - 1 = 27
characters and then appends the 3-character ellipsis, so a 29-character name
is displayed as a 30-character string: the ellipsis marker is there and
short names are unchanged, but the length bound in the claim (and in the
constant's own documentation) is violated. -/
theorem truncateName_exceeds_limit :
    ("abcdefghijklmnopqrstuvwxyzabc" : String).length = 29 ∧
    MAX_NAME_LEN < ("abcdefghijklmnopqrstuvwxyzabc" : String).length ∧
    truncateName "abcdefghijklmnopqrstuvwxyzabc" =
      "abcdefghijklmnopqrstuvwxyza" ++ "..." ∧
    (truncateName "abcdefghijklmnopqrstuvwxyzabc").length = 30 ∧
    MAX_NAME_LEN < (truncateName "abcdefghijklmnopqrstuvwxyzabc").length := by
  decide

/-! ### C2 -/

/-- C2 counterexample: the claim asserts `runSniffer` ignores its topN
argument, so any two topN values must print identical reports over the same
collected records.  With the two-record environment `envTwo`, topN 1 and
topN 2 print different reports: `runSniffer` in fact forwards its argument
to `printTopByWorkingSet`. -/
theorem runSniffer_ignores_topN_cex :
    runSniffer envTwo stubTwo 1 1 ≠ runSniffer envTwo stubTwo 1 2 := by
  decide

/-- C2 (amended): `runSniffer` treats the caller-supplied topN as
authoritative, forwarding it unchanged to `printTopByWorkingSet`; there is
no hardcoded row count, and reports for distinct topN values can differ. -/
theorem runSniffer_forwards_topN (env : OsEnv)
    (stub : Nat → Except Nat (List Nat)) (fuel topN : Nat) (pids : List Nat)
    (h : enumerateProcessIds stub fuel = some (Except.ok pids)) :
    runSniffer env stub fuel topN =
      some ⟨EXIT_SUCCESS,
            some (printTopByWorkingSet (collectLoop env pids) topN), none⟩ := by
  simp [runSniffer, collectProcesses, h]

/-- Witness for `runSniffer_forwards_topN` at the concrete two-record
environment with topN = 5. -/
theorem runSniffer_forwards_topN_witness :
    enumerateProcessIds stubTwo 1 = some (Except.ok [1, 2]) ∧
    runSniffer envTwo stubTwo 1 5 =
      some ⟨EXIT_SUCCESS,
            some (printTopByWorkingSet (collectLoop envTwo [1, 2]) 5), none⟩ :=
  ⟨by decide, runSniffer_forwards_topN envTwo stubTwo 1 5 [1, 2] (by decide)⟩

/-! ### C4 -/

/-- Any error produced by the retry loop originates from one call to the
enumeration primitive. -/
lemma enumLoop_error_src (stub : Nat → Except Nat (List Nat)) :
    ∀ (fuel cap e : Nat), enumLoop stub fuel cap = some (Except.error e) →
      ∃ c, stub c = Except.error e := by
  intro fuel
  induction fuel with
  | zero => intro cap e h; simp [enumLoop] at h
  | succ n ih =>
    intro cap e h
    simp only [enumLoop] at h
    cases hs : stub cap with
    | error e2 =>
      rw [hs] at h
      simp at h
      exact ⟨cap, by rw [hs, h]⟩
    | ok ids =>
      rw [hs] at h
      by_cases hlen : ids.length < cap
      · simp [hlen] at h
      · simp [hlen] at h
        exact ih _ _ h

/-- C4: when the enumeration primitive fails outright, `enumerateProcessIds`
throws a `Win32Error` carrying the context string and the originating OS
error code; the error propagates uncaught through `collectProcesses`, is
caught only in `runSniffer`, is written as a one-line diagnostic to the
error stream, and is mapped to the failure exit status. -/
theorem enumeration_failure_propagates (env : OsEnv)
    (stub : Nat → Except Nat (List Nat)) (fuel topN : Nat) (w : Win32Error)
    (h : enumerateProcessIds stub fuel = some (Except.error w)) :
    w.context = "EnumProcesses failed." ∧
    (∃ cap, stub cap = Except.error w.code) ∧
    collectProcesses env stub fuel = some (Except.error w) ∧
    runSniffer env stub fuel topN =
      some ⟨EXIT_FAILURE, none, some ("Win32 error: " ++ w.what ++ "\n")⟩ := by
  have hcollect : collectProcesses env stub fuel = some (Except.error w) := by
    simp [collectProcesses, h]
  refine ⟨?_, ?_, hcollect, ?_⟩
  · unfold enumerateProcessIds at h
    cases heq : enumLoop stub fuel PID_VECT_SIZE with
    | none => rw [heq] at h; simp at h
    | some r =>
      rw [heq] at h
      cases r with
      | error e => simp at h; rw [← h]
      | ok ids => simp at h
  · unfold enumerateProcessIds at h
    cases heq : enumLoop stub fuel PID_VECT_SIZE with
    | none => rw [heq] at h; simp at h
    | some r =>
      rw [heq] at h
      cases r with
      | error e =>
        simp at h
        have : w.code = e := by rw [← h]
        rw [this]
        exact enumLoop_error_src stub fuel PID_VECT_SIZE e heq
      | ok ids => simp at h
  · simp [runSniffer, hcollect]

/-- Witness for `enumeration_failure_propagates`: the primitive fails with
OS error code 5 on the first call. -/
theorem enumeration_failure_propagates_witness :
    enumerateProcessIds stubFail 1 =
      some (Except.error ⟨"EnumProcesses failed.", 5⟩) ∧
    (Win32Error.mk "EnumProcesses failed." 5).context = "EnumProcesses failed." ∧
    (∃ cap, stubFail cap =
      Except.error (Win32Error.mk "EnumProcesses failed." 5).code) ∧
    collectProcesses envTwo stubFail 1 =
      some (Except.error ⟨"EnumProcesses failed.", 5⟩) ∧
    runSniffer envTwo stubFail 1 10 =
      some ⟨EXIT_FAILURE, none,
            some ("Win32 error: " ++
                  (Win32Error.mk "EnumProcesses failed." 5).what ++ "\n")⟩ :=
  ⟨by decide,
   enumeration_failure_propagates envTwo stubFail 1 10
     ⟨"EnumProcesses failed.", 5⟩ (by decide)⟩

/-! ### C5 -/

/-- C5: the collection loop is exactly the filter-map of `queryProcess`
over the enumerated pid sequence, in order — ids whose inspection yields
nothing are skipped, so the result may be shorter than the id list or empty
without being an error; and on the stubbed ids [0, 100, 200] (0 rejected,
100 failing handle acquisition, 200 succeeding) it returns exactly the one
record {pid 200, "app.exe", 52428800, 20971520}. -/
theorem collectProcesses_filterMap :
    (∀ (env : OsEnv) (pids : List Nat),
        collectLoop env pids = pids.filterMap (queryProcess env)) ∧
    collectLoop envC5 [0, 100, 200] =
      [{ pid := 200, name := "app.exe", workingSetBytes := 52428800,
         privateBytes := 20971520 }] := by
  constructor
  · intro env pids
    induction pids with
    | nil => rfl
    | cons p rest ih =>
      simp only [collectLoop, List.filterMap_cons]
      cases queryProcess env p <;> simp [ih]
  · decide

/-! ### C6 -/

/-- C6: `queryProcess` yields "unavailable" (and, being total, never
throws) when the pid is 0 — with an empty OS trace — and when handle
acquisition fails; in the latter case the trace is exactly the one failed
open attempt, so no memory-counter query is ever issued. -/
theorem queryProcess_unavailable (env : OsEnv) (pid : Nat)
    (hpid : pid ≠ 0) (hopen : env.openProcess pid = 0) :
    queryProcess env 0 = none ∧
    (queryProcessT env 0).2 = [] ∧
    queryProcess env pid = none ∧
    (queryProcessT env pid).2 = [OsCall.openProcess pid] := by
  refine ⟨by simp [queryProcess, queryProcessT], by simp [queryProcessT], ?_, ?_⟩ <;>
    simp [queryProcess, queryProcessT, ProcessHandle.openHandle, hpid, hopen]

/-- Witness for `queryProcess_unavailable` at pid 100 in `envC5`, whose
handle acquisition fails. -/
theorem queryProcess_unavailable_witness :
    queryProcess envC5 0 = none ∧
    (queryProcessT envC5 0).2 = [] ∧
    queryProcess envC5 100 = none ∧
    (queryProcessT envC5 100).2 = [OsCall.openProcess 100] :=
  queryProcess_unavailable envC5 100 (by decide) (by decide)

/-! ### C3 -/

/-- The retry loop, run on a never-failing primitive: if the reported count
meets or exceeds the capacity for the first k capacities of the doubling
sequence and drops strictly below capacity at the k-th doubling, the loop
reaches that capacity and returns exactly what the primitive reported
there. -/
lemma enumLoop_ok_reaches (stub : Nat → List Nat) :
    ∀ (k fuel cap : Nat),
      (∀ j, j < k → cap * 2 ^ j ≤ (stub (cap * 2 ^ j)).length) →
      (stub (cap * 2 ^ k)).length < cap * 2 ^ k →
      k < fuel →
      enumLoop (fun c => Except.ok (stub c)) fuel cap =
        some (Except.ok (stub (cap * 2 ^ k))) := by
  intro k
  induction k with
  | zero =>
    intro fuel cap _ hstop hfuel
    cases fuel with
    | zero => omega
    | succ n =>
      rw [pow_zero, mul_one] at hstop ⊢
      simp only [enumLoop]
      rw [if_pos hstop]
  | succ k ih =>
    intro fuel cap hgrow hstop hfuel
    cases fuel with
    | zero => omega
    | succ n =>
      have hshift : ∀ j, cap * 2 ^ (j + 1) = cap * 2 * 2 ^ j := by
        intro j; rw [pow_succ]; ring
      have h0 : cap ≤ (stub cap).length := by
        have := hgrow 0 (Nat.succ_pos k)
        simpa using this
      simp only [enumLoop]
      rw [if_neg (by omega)]
      rw [hshift k]
      exact ih n (cap * 2)
        (fun j hj => by rw [← hshift j]; exact hgrow (j + 1) (by omega))
        (by rw [← hshift k]; exact hstop) (by omega)

/-- C3: `enumerateProcessIds` starts from a 1024-entry buffer and, for every
stubbed primitive, doubles the capacity exactly while the reported count
meets or exceeds it; as soon as the reported count falls strictly below the
capacity (after k doublings) the loop stops and returns exactly the ids the
primitive reported there, trimmed to the reported count. -/
theorem enumerateProcessIds_exact (stub : Nat → List Nat) (k fuel : Nat)
    (hgrow : ∀ j, j < k →
      PID_VECT_SIZE * 2 ^ j ≤ (stub (PID_VECT_SIZE * 2 ^ j)).length)
    (hstop : (stub (PID_VECT_SIZE * 2 ^ k)).length < PID_VECT_SIZE * 2 ^ k)
    (hfuel : k < fuel) :
    enumerateProcessIds (fun cap => Except.ok (stub cap)) fuel =
      some (Except.ok (stub (PID_VECT_SIZE * 2 ^ k))) := by
  unfold enumerateProcessIds
  rw [enumLoop_ok_reaches stub k fuel PID_VECT_SIZE hgrow hstop hfuel]

/-- Stub primitive injecting a fixed target of 4096 ids: it reports
`min 4096 capacity` ids, so capacities 1024, 2048 and 4096 are fully used
(3 buffer doublings are forced) and capacity 8192 is the first to receive a
count strictly below it. -/
def stubC3 : Nat → List Nat := fun cap => List.range (min 4096 cap)

/-- Witness for `enumerateProcessIds_exact`: the 4096-id injection needs 3
doublings, terminates, and the exact injected count 4096 is returned. -/
theorem enumerateProcessIds_exact_witness :
    (∀ j, j < 3 →
      PID_VECT_SIZE * 2 ^ j ≤ (stubC3 (PID_VECT_SIZE * 2 ^ j)).length) ∧
    (stubC3 (PID_VECT_SIZE * 2 ^ 3)).length < PID_VECT_SIZE * 2 ^ 3 ∧
    enumerateProcessIds (fun cap => Except.ok (stubC3 cap)) 4 =
      some (Except.ok (stubC3 (PID_VECT_SIZE * 2 ^ 3))) ∧
    (stubC3 (PID_VECT_SIZE * 2 ^ 3)).length = 4096 := by
  have hgrow : ∀ j, j < 3 →
      PID_VECT_SIZE * 2 ^ j ≤ (stubC3 (PID_VECT_SIZE * 2 ^ j)).length := by
    intro j hj
    interval_cases j <;> simp [stubC3, List.length_range, PID_VECT_SIZE]
  have hstop : (stubC3 (PID_VECT_SIZE * 2 ^ 3)).length < PID_VECT_SIZE * 2 ^ 3 := by
    simp [stubC3, List.length_range, PID_VECT_SIZE]
  refine ⟨hgrow, hstop, ?_, ?_⟩
  · exact enumerateProcessIds_exact stubC3 3 4 hgrow hstop (by omega)
  · simp [stubC3, List.length_range, PID_VECT_SIZE]

/-! ### C7 -/

/-- C7: name resolution is a two-tier fallback — the short module base name
is tried first and used when available; the full image path is tried only
when the short name fails and used when available; the placeholder
"<unknown>" is produced exactly when both fail (successful Win32 name calls
return non-empty valid file names, which can never equal the placeholder or
the empty string, since Windows file names cannot contain angle brackets and
a successful call copies at least one character); hence the resolved name is
never empty, and a process whose name resolution fails completely still
yields a full record with the placeholder name rather than failing the
inspection. -/
theorem tryGetProcessName_fallback (env : OsEnv) (process : Nat) :
    (∀ s, env.moduleBaseName process = some s →
      tryGetProcessName env process = s) ∧
    (env.moduleBaseName process = none →
      ∀ s, env.fullImageName process = some s →
        tryGetProcessName env process = s) ∧
    (env.moduleBaseName process = none → env.fullImageName process = none →
      tryGetProcessName env process = "<unknown>") ∧
    ((∀ s, env.moduleBaseName process = some s → s ≠ "<unknown>") →
      (∀ s, env.fullImageName process = some s → s ≠ "<unknown>") →
      tryGetProcessName env process = "<unknown>" →
      env.moduleBaseName process = none ∧ env.fullImageName process = none) ∧
    ((∀ s, env.moduleBaseName process = some s → s ≠ "") →
      (∀ s, env.fullImageName process = some s → s ≠ "") →
      tryGetProcessName env process ≠ "") ∧
    (∀ pid ws priv, pid ≠ 0 → env.openProcess pid = process → process ≠ 0 →
      env.memInfo process = some (ws, priv) →
      env.moduleBaseName process = none → env.fullImageName process = none →
      queryProcess env pid =
        some { pid := pid, name := "<unknown>",
               workingSetBytes := ws, privateBytes := priv }) := by
  refine ⟨?_, ?_, ?_, ?_, ?_, ?_⟩
  · intro s hs
    simp [tryGetProcessName, tryGetProcessNameT, hs]
  · intro hmb s hs
    simp [tryGetProcessName, tryGetProcessNameT, hmb, hs]
  · intro hmb hfi
    simp [tryGetProcessName, tryGetProcessNameT, hmb, hfi]
  · intro hmb hfi hres
    cases hmb2 : env.moduleBaseName process with
    | some n =>
      exfalso
      apply hmb n hmb2
      rw [← hres]
      simp [tryGetProcessName, tryGetProcessNameT, hmb2]
    | none =>
      cases hfi2 : env.fullImageName process with
      | some n =>
        exfalso
        apply hfi n hfi2
        rw [← hres]
        simp [tryGetProcessName, tryGetProcessNameT, hmb2, hfi2]
      | none => exact ⟨rfl, rfl⟩
  · intro hmb hfi
    cases hmb2 : env.moduleBaseName process with
    | some n =>
      simp only [tryGetProcessName, tryGetProcessNameT, hmb2]
      exact hmb n hmb2
    | none =>
      cases hfi2 : env.fullImageName process with
      | some n =>
        simp only [tryGetProcessName, tryGetProcessNameT, hmb2, hfi2]
        exact hfi n hfi2
      | none =>
        simp [tryGetProcessName, tryGetProcessNameT, hmb2, hfi2]
  · intro pid ws priv hpid hopen hproc hmem hmb hfi
    simp [queryProcess, queryProcessT, ProcessHandle.openHandle, hpid, hopen,
          hproc, ProcessHandle.get, hmem, tryGetProcessNameT, hmb, hfi]

/-- Witness for `tryGetProcessName_fallback` in the environment where both
name calls fail: the placeholder is used and the record is still built. -/
theorem tryGetProcessName_fallback_witness :
    tryGetProcessName envBothFail 7 = "<unknown>" ∧
    queryProcess envBothFail 7 =
      some { pid := 7, name := "<unknown>",
             workingSetBytes := 1024, privateBytes := 512 } :=
  ⟨(tryGetProcessName_fallback envBothFail 7).2.2.1 rfl rfl,
   (tryGetProcessName_fallback envBothFail 7).2.2.2.2.2 7 1024 512
     (by decide) rfl (by decide) rfl rfl rfl⟩

/-! ### C9 -/

/-- The name-resolution calls never emit a `CloseHandle`. -/
lemma closeHandle_not_mem_nameTrace (env : OsEnv) (h x : Nat) :
    OsCall.closeHandle x ∉ (tryGetProcessNameT env h).2 := by
  unfold tryGetProcessNameT
  cases env.moduleBaseName h with
  | some n => simp
  | none =>
    cases env.fullImageName h with
    | some n => simp
    | none => simp

/-- C9: an acquired handle is released exactly once on every exit path of an
inspection — the OS-call trace of `queryProcess` contains exactly one
`CloseHandle` for the acquired handle whether the memory query fails or the
inspection completes (and none at all when acquisition fails, per the trace
in the C6 theorem); the wrapper itself guarantees this pattern: destroying a
held handle releases it exactly once, move construction transfers the
handle and leaves the source empty so destroying the moved-from object
releases nothing, and move assignment first releases whatever the target
held and empties the source.  (Copy construction and copy assignment are
deleted in the source, so no duplicating operation exists to model.) -/
theorem handle_released_exactly_once (env : OsEnv) (pid h : Nat)
    (hpid : pid ≠ 0) (hopen : env.openProcess pid = h) (hh : h ≠ 0) :
    (queryProcessT env pid).2.count (OsCall.closeHandle h) = 1 ∧
    (∀ v : Nat, v ≠ 0 →
      ProcessHandle.destroy ⟨v⟩ = [OsCall.closeHandle v]) ∧
    (∀ other : ProcessHandle,
      ProcessHandle.moveCtor other = (⟨other.handle_⟩, ⟨0⟩) ∧
      ProcessHandle.destroy (ProcessHandle.moveCtor other).2 = []) ∧
    (∀ self other : ProcessHandle,
      ProcessHandle.moveAssign self other =
        (⟨other.handle_⟩, ⟨0⟩, self.close.2)) := by
  refine ⟨?_, ?_, ?_, ?_⟩
  · simp only [queryProcessT, ProcessHandle.openHandle, hpid, hopen, if_neg hpid,
      if_neg hh]
    cases hmem : env.memInfo (ProcessHandle.get ⟨h⟩) with
    | none =>
      simp [hmem, ProcessHandle.destroy, ProcessHandle.close, ProcessHandle.get, hh,
        List.count_append, List.count_cons]
    | some p =>
      obtain ⟨ws, priv⟩ := p
      have hnotmem : OsCall.closeHandle h ∉ (tryGetProcessNameT env h).2 :=
        closeHandle_not_mem_nameTrace env h h
      simp [hmem, ProcessHandle.destroy, ProcessHandle.close, ProcessHandle.get, hh,
        List.count_append, List.count_cons, List.count_eq_zero.mpr hnotmem]
  · intro v hv
    simp [ProcessHandle.destroy, ProcessHandle.close, hv]
  · intro other
    exact ⟨rfl, by simp [ProcessHandle.moveCtor, ProcessHandle.destroy,
      ProcessHandle.close]⟩
  · intro self other
    rfl

/-- Witness for `handle_released_exactly_once` at the successful inspection
of pid 200 in `envC5`. -/
theorem handle_released_exactly_once_witness :
    (queryProcessT envC5 200).2.count (OsCall.closeHandle 200) = 1 :=
  (handle_released_exactly_once envC5 200 200 (by decide) (by decide)
    (by decide)).1

/-! ### C8 -/

/-- Sorting (a copy of) the collection preserves its length. -/
lemma length_sortByWorkingSetDesc (l : List ProcessInfo) :
    (sortByWorkingSetDesc l).length = l.length :=
  (List.perm_insertionSort wsDesc l).length_eq

/-- Sorting (a copy of) the collection preserves its members. -/
lemma mem_sortByWorkingSetDesc {p : ProcessInfo} {l : List ProcessInfo}
    (hp : p ∈ l) : p ∈ sortByWorkingSetDesc l :=
  ((List.perm_insertionSort wsDesc l).mem_iff).mpr hp

/-- The sorted copy is descending by working-set size. -/
lemma sorted_sortByWorkingSetDesc (l : List ProcessInfo) :
    (sortByWorkingSetDesc l).Pairwise wsDesc :=
  List.sorted_insertionSort wsDesc l

/-- C8: for a non-empty collection, `printTopByWorkingSet` prints a table
whose rows are the records sorted descending by working-set size, limited
to min(requested count, record count) rows; a requested count of 1 yields
exactly one row carrying the largest working set; a requested count at or
above the record count yields all records (every record appears), not an
error. -/
theorem printTop_sorted_clamped (processes : List ProcessInfo) (topN : Nat)
    (hne : processes ≠ []) :
    ∃ rows,
      printTopByWorkingSet processes topN =
        ReportOutput.table (min topN processes.length) rows ∧
      rows.length = min topN processes.length ∧
      rows.Pairwise (fun a b => b.workingSetBytes ≤ a.workingSetBytes) ∧
      (topN = 1 → ∃ r, rows = [r] ∧
        ∀ p ∈ processes, p.workingSetBytes ≤ r.workingSetBytes) ∧
      (processes.length ≤ topN →
        rows = (sortByWorkingSetDesc processes).map ProcessInfo.toRow ∧
        ∀ p ∈ processes, ProcessInfo.toRow p ∈ rows) := by
  have hempty : processes.isEmpty = false := by
    cases processes with
    | nil => exact absurd rfl hne
    | cons a l => rfl
  have hlen := length_sortByWorkingSetDesc processes
  have hsorted := sorted_sortByWorkingSetDesc processes
  have hpos : 0 < processes.length := by
    cases processes with
    | nil => exact absurd rfl hne
    | cons a l => exact Nat.succ_pos _
  refine ⟨((sortByWorkingSetDesc processes).take
      (min topN (sortByWorkingSetDesc processes).length)).map ProcessInfo.toRow,
    ?_, ?_, ?_, ?_, ?_⟩
  · simp [printTopByWorkingSet, hempty, hlen]
  · rw [List.length_map, List.length_take, hlen]
    exact min_assoc topN processes.length processes.length ▸ by rw [min_self]
  · rw [List.pairwise_map]
    exact (hsorted.sublist (List.take_sublist _ _)).imp (fun h => h)
  · intro h1
    subst h1
    rw [hlen]
    have hmin : min 1 processes.length = 1 := Nat.min_eq_left hpos
    rw [hmin]
    cases hs : sortByWorkingSetDesc processes with
    | nil => rw [hs] at hlen; simp at hlen; omega
    | cons s rest =>
      refine ⟨ProcessInfo.toRow s, by simp, ?_⟩
      intro p hp
      have hmem := mem_sortByWorkingSetDesc hp
      rw [hs] at hmem hsorted
      rcases List.mem_cons.mp hmem with h | h
      · rw [h]; exact Nat.le_refl _
      · exact (List.pairwise_cons.mp hsorted).1 p h
  · intro hle
    have hmin : min topN (sortByWorkingSetDesc processes).length =
        (sortByWorkingSetDesc processes).length := by
      rw [hlen]; exact Nat.min_eq_right hle
    rw [hmin, List.take_length]
    exact ⟨rfl, fun p hp => List.mem_map_of_mem _ (mem_sortByWorkingSetDesc hp)⟩

/-- Records from the spec's reporting test: working sets of 10 MiB and
50 MiB. -/
def procsTwo : List ProcessInfo :=
  [{ pid := 1, name := "small.exe", workingSetBytes := 10485760, privateBytes := 1 },
   { pid := 2, name := "big.exe", workingSetBytes := 52428800, privateBytes := 2 }]

/-- Witness for `printTop_sorted_clamped` on the spec's two-record example
with requested count 5. -/
theorem printTop_sorted_clamped_witness :
    ∃ rows,
      printTopByWorkingSet procsTwo 5 =
        ReportOutput.table (min 5 procsTwo.length) rows ∧
      rows.length = min 5 procsTwo.length ∧
      rows.Pairwise (fun a b => b.workingSetBytes ≤ a.workingSetBytes) ∧
      (5 = 1 → ∃ r, rows = [r] ∧
        ∀ p ∈ procsTwo, p.workingSetBytes ≤ r.workingSetBytes) ∧
      (procsTwo.length ≤ 5 →
        rows = (sortByWorkingSetDesc procsTwo).map ProcessInfo.toRow ∧
        ∀ p ∈ procsTwo, ProcessInfo.toRow p ∈ rows) :=
  printTop_sorted_clamped procsTwo 5 (by decide)

/-! ### C10 -/

/-- C10: a `printTopByWorkingSet` call never modifies the caller's record
collection — the caller's vector is bound by const reference and copied
into the local `sorted`, and only that copy is sorted, so after the call the
collected records (ids, names, byte counts, and their order) are exactly
what `collectProcesses` returned, and the printed report is a function of
the collection's value alone. -/
theorem printTop_frame (processes : List ProcessInfo) (topN : Nat) :
    (printTopByWorkingSetCall processes topN).2 = processes ∧
    (printTopByWorkingSetCall processes topN).1 =
      printTopByWorkingSet processes topN := by
  unfold printTopByWorkingSetCall printTopByWorkingSet
  by_cases h : processes.isEmpty <;> simp [h]

end ProcessMemorySniffer
